import Mathlib

/-!
Verification of the durable pet-creation subsystem of Apurer/go-gin-api-server.

The Lean definitions below are a shallow embedding of the Go source:
pure helpers (hashing, fingerprinting, JSON canonicalization) become Lean
functions over `Nat`/`Int`/`String`/`List`; stateful code (idempotency
stores, the Temporal workflow, the sync activity) is modelled by explicit
state passing over oracle environments, with an event log recording the
order of outbound calls.  Go `int64` is modelled by `Int` (no overflow is
exercised), `float64` by `Rat` (no float arithmetic is exercised by any
property below; float-typed fields are only carried around or compared for
equality), `time.Time` by an abstract integer clock, and Go maps by
association lists whose key sets are unique.
-/

namespace PetStore

/-! ## Bytes, hex encoding, UTF-8 (Go `encoding/hex`, string bytes) -/

/-- 2^32, the modulus for 32-bit words. -/
def w32 : Nat := 4294967296

/-- Lower hex digit for a nibble, as produced by Go `hex.EncodeToString`. -/
def hexChar (n : Nat) : Char :=
  if n < 10 then Char.ofNat (48 + n) else Char.ofNat (87 + n)

/-- The two lowercase hex characters of one byte. -/
def byteHex (b : Nat) : List Char :=
  [hexChar (b / 16 % 16), hexChar (b % 16)]

/-- Go `hex.EncodeToString` over a byte list. -/
def hexEncode (bs : List Nat) : String :=
  String.mk (bs.flatMap byteHex)

/-- UTF-8 encoding of a single character, as Go lays out string bytes. -/
def utf8Char (c : Char) : List Nat :=
  let n := c.toNat
  if n < 128 then [n]
  else if n < 2048 then [192 + n / 64, 128 + n % 64]
  else if n < 65536 then [224 + n / 4096, 128 + n / 64 % 64, 128 + n % 64]
  else [240 + n / 262144, 128 + n / 4096 % 64, 128 + n / 64 % 64, 128 + n % 64]

/-- The UTF-8 bytes of a Go string. -/
def strBytes (s : String) : List Nat :=
  s.data.flatMap utf8Char

/-! ## SHA-256 (Go `crypto/sha256.Sum256`) -/

/-- Right rotation of a 32-bit word. -/
def rotr (n x : Nat) : Nat :=
  ((x >>> n) ||| (x <<< (32 - n))) % w32

def shaCh (e f g : Nat) : Nat := (e &&& f) ^^^ ((e ^^^ 4294967295) &&& g)

def shaMaj (a b c : Nat) : Nat := (a &&& b) ^^^ (a &&& c) ^^^ (b &&& c)

def bigSigma0 (x : Nat) : Nat := rotr 2 x ^^^ rotr 13 x ^^^ rotr 22 x

def bigSigma1 (x : Nat) : Nat := rotr 6 x ^^^ rotr 11 x ^^^ rotr 25 x

def smallSigma0 (x : Nat) : Nat := rotr 7 x ^^^ rotr 18 x ^^^ (x >>> 3)

def smallSigma1 (x : Nat) : Nat := rotr 17 x ^^^ rotr 19 x ^^^ (x >>> 10)

/-- The 64 SHA-256 round constants. -/
def shaK : List Nat :=
  [1116352408, 1899447441, 3049323471, 3921009573, 961987163, 1508970993,
   2453635748, 2870763221, 3624381080, 310598401, 607225278, 1426881987,
   1925078388, 2162078206, 2614888103, 3248222580, 3835390401, 4022224774,
   264347078, 604807628, 770255983, 1249150122, 1555081692, 1996064986,
   2554220882, 2821834349, 2952996808, 3210313671, 3336571891, 3584528711,
   113926993, 338241895, 666307205, 773529912, 1294757372, 1396182291,
   1695183700, 1986661051, 2177026350, 2456956037, 2730485921, 2820302411,
   3259730800, 3345764771, 3516065817, 3600352804, 4094571909, 275423344,
   430227734, 506948616, 659060556, 883997877, 958139571, 1322822218,
   1537002063, 1747873779, 1955562222, 2024104815, 2227730452, 2361852424,
   2428436474, 2756734187, 3204031479, 3329325298]

/-- Working state of the SHA-256 compression function. -/
structure ShaState where
  a : Nat
  b : Nat
  c : Nat
  d : Nat
  e : Nat
  f : Nat
  g : Nat
  h : Nat
  deriving DecidableEq, Repr

/-- The SHA-256 initialization vector. -/
def shaInit : ShaState :=
  ⟨1779033703, 3144134277, 1013904242, 2773480762,
   1359893119, 2600822924, 528734635, 1541459225⟩

/-- One round of the compression function. -/
def shaRound (st : ShaState) (k wi : Nat) : ShaState :=
  let t1 := (st.h + bigSigma1 st.e + shaCh st.e st.f st.g + k + wi) % w32
  let t2 := (bigSigma0 st.a + shaMaj st.a st.b st.c) % w32
  ⟨(t1 + t2) % w32, st.a, st.b, st.c, (st.d + t1) % w32, st.e, st.f, st.g⟩

/-- SHA-256 padding: append `0x80`, zeros and the 64-bit big-endian bit length. -/
def shaPad (msg : List Nat) : List Nat :=
  let len := msg.length
  let zeros := (119 - len % 64) % 64
  let bitLen := len * 8
  msg ++ [128] ++ List.replicate zeros 0 ++
    [bitLen / 72057594037927936 % 256, bitLen / 281474976710656 % 256,
     bitLen / 1099511627776 % 256, bitLen / 4294967296 % 256,
     bitLen / 16777216 % 256, bitLen / 65536 % 256,
     bitLen / 256 % 256, bitLen % 256]

/-- Big-endian 32-bit words from bytes. -/
def bytesToWords : List Nat → List Nat
  | b0 :: b1 :: b2 :: b3 :: rest =>
      (b0 * 16777216 + b1 * 65536 + b2 * 256 + b3) :: bytesToWords rest
  | _ => []

/-- Extend the 16 block words to the 64-entry message schedule. -/
def shaExtend : Nat → List Nat → List Nat
  | 0, ws => ws
  | fuel + 1, ws =>
      let n := ws.length
      let word := (smallSigma1 (ws.getD (n - 2) 0) + ws.getD (n - 7) 0 +
        smallSigma0 (ws.getD (n - 15) 0) + ws.getD (n - 16) 0) % w32
      shaExtend fuel (ws ++ [word])

/-- Compress one 64-byte block into the running state. -/
def shaBlock (st : ShaState) (block : List Nat) : ShaState :=
  let ws := shaExtend 48 (bytesToWords block)
  let rounds := (shaK.zip ws).foldl (fun s kw => shaRound s kw.1 kw.2) st
  ⟨(st.a + rounds.a) % w32, (st.b + rounds.b) % w32, (st.c + rounds.c) % w32,
   (st.d + rounds.d) % w32, (st.e + rounds.e) % w32, (st.f + rounds.f) % w32,
   (st.g + rounds.g) % w32, (st.h + rounds.h) % w32⟩

/-- Split padded input into 64-byte chunks (fuel-driven structural recursion). -/
def chunks64 : Nat → List Nat → List (List Nat)
  | 0, _ => []
  | _, [] => []
  | fuel + 1, l => l.take 64 :: chunks64 fuel (l.drop 64)

/-- Big-endian bytes of one 32-bit word. -/
def wordBytes (x : Nat) : List Nat :=
  [x / 16777216 % 256, x / 65536 % 256, x / 256 % 256, x % 256]

/-- SHA-256 digest (32 bytes) of a byte list; Go `sha256.Sum256`. -/
def sha256 (msg : List Nat) : List Nat :=
  let padded := shaPad msg
  let final := (chunks64 padded.length padded).foldl shaBlock shaInit
  wordBytes final.a ++ wordBytes final.b ++ wordBytes final.c ++
    wordBytes final.d ++ wordBytes final.e ++ wordBytes final.f ++
    wordBytes final.g ++ wordBytes final.h

/-! ## Go string/JSON helpers (`strings.TrimSpace`, `strconv`, `encoding/json`) -/

/-- Unicode white space as recognized by Go `unicode.IsSpace`. -/
def goIsSpace (c : Char) : Bool :=
  let n := c.toNat
  (9 ≤ n && n ≤ 13) || n == 32 || n == 133 || n == 160 || n == 5760 ||
  (8192 ≤ n && n ≤ 8202) || n == 8232 || n == 8233 || n == 8239 ||
  n == 8287 || n == 12288

/-- Go `strings.TrimSpace`. -/
def goTrimSpace (s : String) : String :=
  String.mk ((s.data.dropWhile goIsSpace).reverse.dropWhile goIsSpace |>.reverse)

/-- Go decimal formatting of an `int64` (`strconv.FormatInt(v, 10)` and the
JSON rendering of integer fields). -/
def goFormatInt (i : Int) : String := toString i

/-- JSON escaping of one character as done by Go `encoding/json` with its
default HTML escaping (`"`, `\`, control characters, `<`, `>`, `&`,
U+2028/U+2029). -/
def jsonEscapeChar (c : Char) : List Char :=
  let n := c.toNat
  if c = '"' then ['\\', '"']
  else if c = '\\' then ['\\', '\\']
  else if c = '\n' then ['\\', 'n']
  else if c = '\r' then ['\\', 'r']
  else if c = '\t' then ['\\', 't']
  else if c = '<' then ['\\', 'u', '0', '0', '3', 'c']
  else if c = '>' then ['\\', 'u', '0', '0', '3', 'e']
  else if c = '&' then ['\\', 'u', '0', '0', '2', '6']
  else if n < 32 then ['\\', 'u', '0', '0', hexChar (n / 16), hexChar (n % 16)]
  else if n = 8232 then ['\\', 'u', '2', '0', '2', '8']
  else if n = 8233 then ['\\', 'u', '2', '0', '2', '9']
  else [c]

/-- A JSON string literal as emitted by Go `encoding/json`. -/
def jsonStr (s : String) : String :=
  "\"" ++ String.mk (s.data.flatMap jsonEscapeChar) ++ "\""

/-- JSON rendering of a Go `float64` field.  `float64` is modelled by `Rat`;
only the integral rendering is spelled out because no exercised code path
serializes a non-null float (the fingerprint field is a `*float64` that every
property below leaves `nil`). -/
def jsonRat (q : Rat) : String :=
  if q.den = 1 then goFormatInt q.num else goFormatInt q.num ++ "." ++ toString q.den

/-- JSON array out of already-rendered element strings. -/
def jsonArr (elems : List String) : String :=
  "[" ++ String.intercalate "," elems ++ "]"

/-- JSON object out of rendered `key:value` member strings. -/
def jsonObj (members : List String) : String :=
  "\x7b" ++ String.intercalate "," members ++ "\x7d"

/-- One rendered JSON object member. -/
def jsonMember (key value : String) : String :=
  jsonStr key ++ ":" ++ value

/-! ## Pet command payload types
(`internal/domains/pets/application/types`, `queries.go`) -/

/-- Go `types.CategoryInput`. -/
structure CategoryInput where
  ID : Int
  Name : String
  deriving DecidableEq, Repr

/-- Go `types.TagInput`. -/
structure TagInput where
  ID : Int
  Name : String
  deriving DecidableEq, Repr

/-- Go `types.ExternalReferenceInput`; the `map[string]string` attribute map
is modelled as an association list whose order stands for Go's arbitrary map
iteration order. -/
structure ExternalReferenceInput where
  Provider : String
  ID : String
  Attributes : List (String × String)
  deriving DecidableEq, Repr

/-- Go `types.PetMutationInput` (pointer fields become `Option`). -/
structure PetMutationInput where
  ID : Int
  Name : Option String
  PhotoURLs : Option (List String)
  Category : Option CategoryInput
  Tags : Option (List TagInput)
  Status : Option String
  HairLengthCm : Option Rat
  ExternalReference : Option ExternalReferenceInput
  deriving DecidableEq, Repr

/-- Go `types.AddPetInput`: the mutation payload plus the client-supplied
idempotency key (field visible through its uses in the orchestrator and the
service tests). -/
structure AddPetInput where
  PetMutationInput : PetMutationInput
  IdempotencyKey : String
  deriving DecidableEq, Repr

/-! ## Request fingerprinting
(`internal/domains/pets/application/idempotency.go`) -/

/-- Go `normalizedTag`. -/
structure NormalizedTag where
  ID : Int
  Name : String
  deriving DecidableEq, Repr

/-- Go `normalizedAttrKV`. -/
structure NormalizedAttrKV where
  Key : String
  Value : String
  deriving DecidableEq, Repr

/-- Go `normalizedCategory`. -/
structure NormalizedCategory where
  ID : Int
  Name : String
  deriving DecidableEq, Repr

/-- Go `normalizedExternalReference`. -/
structure NormalizedExternalReference where
  Provider : String
  ID : String
  Attributes : List NormalizedAttrKV
  deriving DecidableEq, Repr

/-- Go `normalizedAddPetInput`. -/
structure NormalizedAddPetInput where
  ID : Int
  Name : Option String
  PhotoURLs : Option (List String)
  Category : Option NormalizedCategory
  Tags : Option (List NormalizedTag)
  Status : Option String
  HairLengthCm : Option Rat
  ExternalReference : Option NormalizedExternalReference
  deriving DecidableEq, Repr

/-- Go `normalizeCategory`. -/
def normalizeCategory : Option CategoryInput → Option NormalizedCategory
  | none => none
  | some cat => some ⟨cat.ID, cat.Name⟩

/-- Go `normalizeTags`: copies the tag list in its given order (no sorting). -/
def normalizeTags : Option (List TagInput) → Option (List NormalizedTag)
  | none => none
  | some tags => some (tags.map fun t => ⟨t.ID, t.Name⟩)

/-- Comparison used by `sort.Slice(attrs, ...)` in `normalizeExternalReference`
(`attrs[i].Key < attrs[j].Key`), totalized to `≤`.  The sort is modelled by a
stable insertion sort; Go's `sort.Slice` is unstable, but the two can only
differ on fully equal elements, for which every order yields the same list,
so the modelled output coincides with Go's for every input. -/
def attrKeyLe (a b : NormalizedAttrKV) : Prop := a.Key ≤ b.Key

instance (a b : NormalizedAttrKV) : Decidable (attrKeyLe a b) :=
  inferInstanceAs (Decidable (a.Key ≤ b.Key))

/-- Go `normalizeExternalReference`: copies the attribute map entries and
sorts them by key. -/
def normalizeExternalReference (ref : ExternalReferenceInput) :
    NormalizedExternalReference :=
  let attrs := ref.Attributes.map fun kv => NormalizedAttrKV.mk kv.1 kv.2
  ⟨ref.Provider, ref.ID, attrs.insertionSort attrKeyLe⟩

/-- Go `normalizeAddPetInput`. -/
def normalizeAddPetInput (input : AddPetInput) : NormalizedAddPetInput :=
  { ID := input.PetMutationInput.ID
    Name := input.PetMutationInput.Name
    PhotoURLs := input.PetMutationInput.PhotoURLs
    Category := normalizeCategory input.PetMutationInput.Category
    Tags := normalizeTags input.PetMutationInput.Tags
    Status := input.PetMutationInput.Status
    HairLengthCm := input.PetMutationInput.HairLengthCm
    ExternalReference :=
      match input.PetMutationInput.ExternalReference with
      | none => none
      | some ref => some (normalizeExternalReference ref) }

/-- `json.Marshal` of a `*string` field. -/
def jsonOptStr : Option String → String
  | none => "null"
  | some s => jsonStr s

/-- `json.Marshal` of a `*[]string` field. -/
def jsonOptStrList : Option (List String) → String
  | none => "null"
  | some l => jsonArr (l.map jsonStr)

/-- `json.Marshal` of one `normalizedTag`. -/
def jsonNormalizedTag (t : NormalizedTag) : String :=
  jsonObj [jsonMember "id" (goFormatInt t.ID), jsonMember "name" (jsonStr t.Name)]

/-- `json.Marshal` of one `normalizedAttrKV`. -/
def jsonNormalizedAttr (kv : NormalizedAttrKV) : String :=
  jsonObj [jsonMember "key" (jsonStr kv.Key), jsonMember "value" (jsonStr kv.Value)]

/-- `json.Marshal` of a `*normalizedCategory` field. -/
def jsonNormalizedCategory : Option NormalizedCategory → String
  | none => "null"
  | some c => jsonObj [jsonMember "id" (goFormatInt c.ID), jsonMember "name" (jsonStr c.Name)]

/-- `json.Marshal` of a `*normalizedExternalReference` field; the
`attributes` member carries `omitempty` and disappears for an empty slice. -/
def jsonNormalizedExternalReference : Option NormalizedExternalReference → String
  | none => "null"
  | some ref =>
      jsonObj ([jsonMember "provider" (jsonStr ref.Provider),
        jsonMember "id" (jsonStr ref.ID)] ++
        (if ref.Attributes.isEmpty then []
         else [jsonMember "attributes" (jsonArr (ref.Attributes.map jsonNormalizedAttr))]))

/-- `json.Marshal` of the whole `normalizedAddPetInput`, members in struct
declaration order. -/
def jsonNormalizedAddPetInput (n : NormalizedAddPetInput) : String :=
  jsonObj [jsonMember "id" (goFormatInt n.ID),
    jsonMember "name" (jsonOptStr n.Name),
    jsonMember "photoUrls" (jsonOptStrList n.PhotoURLs),
    jsonMember "category" (jsonNormalizedCategory n.Category),
    jsonMember "tags" (match n.Tags with
      | none => "null"
      | some tags => jsonArr (tags.map jsonNormalizedTag)),
    jsonMember "status" (jsonOptStr n.Status),
    jsonMember "hairLengthCm" (match n.HairLengthCm with
      | none => "null"
      | some q => jsonRat q),
    jsonMember "externalReference" (jsonNormalizedExternalReference n.ExternalReference)]

/-- Go `FingerprintAddPet`: canonical JSON of the normalized command (the
idempotency key excluded), hashed with SHA-256 and hex encoded.  The Go
function can only return an error when `json.Marshal` fails, which it never
does for these types, so the embedding is total. -/
def FingerprintAddPet (input : AddPetInput) : String :=
  hexEncode (sha256 (strBytes (jsonNormalizedAddPetInput (normalizeAddPetInput input))))

/-! ## Go error values

Sentinel errors and wrappers appearing in the verified code paths; `errors.Is`
against a sentinel becomes a constructor test, `fmt.Errorf("%w: %w", ...)`
becomes an explicit wrapper constructor. -/

inductive GoErr where
  /-- `domain.ErrEmptyName` -/
  | emptyName
  /-- `domain.ErrEmptyPhotos` -/
  | emptyPhotos
  /-- `domain.ErrInvalidHair` -/
  | invalidHair
  /-- `domain.ErrInvalidGrooming` -/
  | invalidGrooming
  /-- `domain.ErrInvalidStatus` (listed by the pets `mapError`). -/
  | invalidStatus
  /-- `ports.ErrIdempotencyConflict` -/
  | idempotencyConflict
  /-- `gorm.ErrDuplicatedKey` -/
  | duplicatedKey
  /-- `ports.ErrNotFound` -/
  | notFound
  /-- `fmt.Errorf("%w: %w", ErrInvalidInput, err)` in `mapError`. -/
  | invalidInputWrap (inner : GoErr)
  /-- `fmt.Errorf("%w: %w", ErrPartnerSync, err)` in `syncWithPartner`. -/
  | partnerSyncWrap (inner : GoErr)
  /-- `serviceerror.WorkflowExecutionAlreadyStarted` carrying the run id. -/
  | workflowAlreadyStarted (runID : String)
  /-- any other error, identified by its message. -/
  | other (msg : String)
  deriving DecidableEq, Repr

/-- `time.Time`, modelled as an abstract instant. -/
abbrev Time := Int

/-! ## Idempotency records and stores
(`internal/domains/pets/ports`, memory store from
`adapters/http/mapper/pet_mapper.go`, postgres store from
`adapters/persistence/postgres/idempotency_store.go`) -/

/-- Go `ports.IdempotencyRecord`. -/
structure IdempotencyRecord where
  Key : String
  RequestHash : String
  PetID : Int
  CreatedAt : Time
  UpdatedAt : Time
  deriving DecidableEq, Repr

/-- Lookup in an association-list model of a Go map / unique-key table. -/
def lookupRec (records : List (String × IdempotencyRecord)) (key : String) :
    Option IdempotencyRecord :=
  (records.find? fun kv => kv.1 = key).map fun kv => kv.2

/-- Go map assignment `m[key] = rec` (replaces an existing binding). -/
def insertRec (records : List (String × IdempotencyRecord)) (key : String)
    (rec : IdempotencyRecord) : List (String × IdempotencyRecord) :=
  if (records.find? fun kv => kv.1 = key).isSome then
    records.map fun kv => if kv.1 = key then (key, rec) else kv
  else records ++ [(key, rec)]

/-- State of the in-memory `IdempotencyStore`: its record map plus the value
the injected clock `s.now()` returns at the next call. -/
structure MemStore where
  records : List (String × IdempotencyRecord)
  now : Time
  deriving DecidableEq, Repr

/-- In-memory `IdempotencyStore.Get`. -/
def memGet (s : MemStore) (key : String) : Option IdempotencyRecord × Option GoErr :=
  (lookupRec s.records key, none)

/-- In-memory `IdempotencyStore.Save`: returns the (possibly updated) store,
the returned record pointer and the returned error. -/
def memSave (s : MemStore) (record : IdempotencyRecord) :
    MemStore × Option IdempotencyRecord × Option GoErr :=
  match lookupRec s.records record.Key with
  | some existing =>
      if existing.RequestHash ≠ record.RequestHash ∨ existing.PetID ≠ record.PetID then
        (s, some existing, some .idempotencyConflict)
      else
        (s, some existing, none)
  | none =>
      let stamped := { record with CreatedAt := s.now, UpdatedAt := s.now }
      ({ s with records := insertRec s.records record.Key stamped },
        some stamped, none)

/-- The `pet_idempotency_keys` table, keyed by `key` with a uniqueness
constraint on the key column. -/
structure PgDb where
  rows : List (String × IdempotencyRecord)
  deriving DecidableEq, Repr

/-- GORM `Create` on the table: inserting a key that already exists fails
with `gorm.ErrDuplicatedKey` and leaves the table unchanged. -/
def pgCreate (db : PgDb) (record : IdempotencyRecord) : PgDb × Option GoErr :=
  match lookupRec db.rows record.Key with
  | some _ => (db, some .duplicatedKey)
  | none => (⟨db.rows ++ [(record.Key, record)]⟩, none)

/-- Postgres `IdempotencyStore.Get`: `First` with `gorm.ErrRecordNotFound`
mapped to `(nil, nil)`; other database failures are not modelled. -/
def pgGet (db : PgDb) (key : String) : Option IdempotencyRecord × Option GoErr :=
  (lookupRec db.rows key, none)

/-- Postgres `IdempotencyStore.Save`.  The insert runs against the table
snapshot `dbAtCreate`; the follow-up `Get` of the duplicate-key path runs
against `dbAtGet`, a possibly different snapshot because a concurrent writer
may act between the two statements (`dbAtGet = dbAtCreate` is the
single-writer case).  Returns the table after the insert attempt, the
returned record and the returned error.  Note the Go error shadowing: in the
duplicate-key path `err` is the `Get` error, so when `Get` finds nothing the
function returns `nil, nil`. -/
def pgSave (dbAtCreate dbAtGet : PgDb) (record : IdempotencyRecord) :
    PgDb × Option IdempotencyRecord × Option GoErr :=
  match pgCreate dbAtCreate record with
  | (db2, none) => (db2, some record, none)
  | (db2, some e) =>
      if e = .duplicatedKey then
        match pgGet dbAtGet record.Key with
        | (_, some getErr) => (db2, none, some getErr)
        | (none, none) => (db2, none, none)
        | (some existing, none) =>
            if existing.RequestHash ≠ record.RequestHash ∨ existing.PetID ≠ record.PetID then
              (db2, some existing, some .idempotencyConflict)
            else
              (db2, some existing, none)
      else
        (db2, none, some e)

/-! ## Pet domain aggregate
(`internal/domains/pets/domain`, as concatenated into
`application/types/projections.go`) -/

/-- Go `domain.Status` is a string type. -/
abbrev Status := String

def StatusAvailable : Status := "available"
def StatusPending : Status := "pending"
def StatusSold : Status := "sold"

/-- Go `domain.Category`. -/
structure Category where
  ID : Int
  Name : String
  deriving DecidableEq, Repr

/-- Go `domain.Tag`. -/
structure DTag where
  ID : Int
  Name : String
  deriving DecidableEq, Repr

/-- Go `domain.ExternalReference`; the attribute map is an association list
with uniquely-bound keys (`[]` models both the nil and the empty map). -/
structure ExternalReference where
  Provider : String
  ID : String
  Attributes : List (String × String)
  deriving DecidableEq, Repr

/-- Go map read `m[k]` with the string zero value for a missing key. -/
def attrGet (attrs : List (String × String)) (k : String) : String :=
  ((attrs.find? fun kv => kv.1 = k).map fun kv => kv.2).getD ""

/-- Go map write `m[k] = v`. -/
def attrSet (attrs : List (String × String)) (k v : String) :
    List (String × String) :=
  if (attrs.find? fun kv => kv.1 = k).isSome then
    attrs.map fun kv => if kv.1 = k then (k, v) else kv
  else attrs ++ [(k, v)]

/-- Go `domain.Pet`. -/
structure Pet where
  ID : Int
  Category : Option Category
  Name : String
  PhotoURLs : List String
  Tags : List DTag
  Status : Status
  HairLengthCm : Rat
  ExternalRef : Option ExternalReference
  deriving DecidableEq, Repr

/-- The zero-valued `&Pet{ID: id}` that `NewPet` starts from. -/
def Pet.zero (id : Int) : Pet :=
  ⟨id, none, "", [], [], "", 0, none⟩

/-- Go `(*Pet).Rename`. -/
def Pet.Rename (p : Pet) (name : String) : Except GoErr Pet :=
  if goTrimSpace name = "" then .error .emptyName
  else .ok { p with Name := name }

/-- Go `(*Pet).ReplacePhotos`. -/
def Pet.ReplacePhotos (p : Pet) (urls : List String) : Except GoErr Pet :=
  if urls.isEmpty then .error .emptyPhotos
  else .ok { p with PhotoURLs := urls }

/-- Go `(*Pet).UpdateHairLength`. -/
def Pet.UpdateHairLength (p : Pet) (length : Rat) : Except GoErr Pet :=
  if length < 0 then .error .invalidHair
  else .ok { p with HairLengthCm := length }

/-- Go `(*Pet).UpdateStatus` (`projections.go` lines 159-170): an empty
status defaults to `available`, a known status is stored, and any other
value is silently replaced by `available` — no error is ever reported. -/
def Pet.UpdateStatus (p : Pet) (status : String) : Pet :=
  let status := if status = "" then StatusAvailable else status
  if status = StatusAvailable ∨ status = StatusPending ∨ status = StatusSold then
    { p with Status := status }
  else
    { p with Status := StatusAvailable }

/-- Go `(*Pet).ReplaceTags`. -/
def Pet.ReplaceTags (p : Pet) (tags : List DTag) : Pet :=
  { p with Tags := tags }

/-- Go `(*Pet).UpdateCategory`. -/
def Pet.UpdateCategory (p : Pet) (cat : Option PetStore.Category) : Pet :=
  { p with Category := cat }

/-- Go `(*Pet).UpdateExternalReference` (copies the reference and its map). -/
def Pet.UpdateExternalReference (p : Pet) (ref : Option PetStore.ExternalReference) : Pet :=
  { p with ExternalRef := ref }

/-- Go `domain.NewPet`. -/
def NewPet (id : Int) (name : String) (photoURLs : List String) : Except GoErr Pet := do
  let p := Pet.zero id
  let p ← p.Rename name
  let p ← p.ReplacePhotos photoURLs
  return p

/-- Go `types.PetMetadata`. -/
structure PetMetadata where
  CreatedAt : Time
  UpdatedAt : Time
  deriving DecidableEq, Repr

/-- Go `types.PetProjection` (`Pet` is a pointer and may be nil). -/
structure PetProjection where
  Pet : Option Pet
  Metadata : PetMetadata
  deriving DecidableEq, Repr

/-! ## Partner-sync activity
(`internal/platform/temporal/activities/pets/pet.go`) -/

/-- Go `partnerSyncHashKey`. -/
def partnerSyncHashKey : String := "partner_sync_hash"

/-- Go `syncHeartbeat`. -/
structure SyncHeartbeat where
  Completed : Bool
  Hash : String
  deriving DecidableEq, Repr

/-- Go `syncTag`. -/
structure SyncTag where
  ID : Int
  Name : String
  deriving DecidableEq, Repr

/-- Go `syncAttributeKV`. -/
structure SyncAttributeKV where
  Key : String
  Value : String
  deriving DecidableEq, Repr

/-- Comparison used by `sort.Slice(tags, ...)` in `computePartnerSyncHash`
(name first, then id), totalized to `≤`; ties are only between identical
pairs, which serialize identically, so the stable model matches Go's
unstable sort. -/
def syncTagLe (a b : SyncTag) : Prop :=
  a.Name < b.Name ∨ (a.Name = b.Name ∧ a.ID ≤ b.ID)

instance (a b : SyncTag) : Decidable (syncTagLe a b) :=
  inferInstanceAs (Decidable (a.Name < b.Name ∨ (a.Name = b.Name ∧ a.ID ≤ b.ID)))

/-- Comparison used by `sort.Slice(attrs, ...)` in `computePartnerSyncHash`
(`attrs[i].Key < attrs[j].Key`), totalized to `≤`. -/
def syncAttrLe (a b : SyncAttributeKV) : Prop := a.Key ≤ b.Key

instance (a b : SyncAttributeKV) : Decidable (syncAttrLe a b) :=
  inferInstanceAs (Decidable (a.Key ≤ b.Key))

/-- The anonymous normalized struct built inside `computePartnerSyncHash`. -/
structure SyncPayload where
  ID : Int
  Name : String
  Status : Status
  CategoryID : Int
  CategoryName : String
  PhotoURLs : List String
  Tags : Option (List SyncTag)
  Attributes : Option (List SyncAttributeKV)
  deriving DecidableEq, Repr

/-- `json.Marshal` of the normalized partner-sync struct, members in struct
declaration order; the `Tags`/`Attributes` slices are `null` when never
assigned. -/
def jsonSyncPayload (n : SyncPayload) : String :=
  jsonObj [jsonMember "id" (goFormatInt n.ID),
    jsonMember "name" (jsonStr n.Name),
    jsonMember "status" (jsonStr n.Status),
    jsonMember "categoryId" (goFormatInt n.CategoryID),
    jsonMember "categoryName" (jsonStr n.CategoryName),
    jsonMember "photoUrls" (jsonArr (n.PhotoURLs.map jsonStr)),
    jsonMember "tags" (match n.Tags with
      | none => "null"
      | some tags => jsonArr (tags.map fun t =>
          jsonObj [jsonMember "id" (goFormatInt t.ID),
            jsonMember "name" (jsonStr t.Name)])),
    jsonMember "attributes" (match n.Attributes with
      | none => "null"
      | some attrs => jsonArr (attrs.map fun kv =>
          jsonObj [jsonMember "key" (jsonStr kv.Key),
            jsonMember "value" (jsonStr kv.Value)]))]

/-- The normalized payload `computePartnerSyncHash` builds from a pet. -/
def syncPayloadOf (p : Pet) : SyncPayload :=
  let base : SyncPayload :=
    { ID := p.ID, Name := p.Name, Status := p.Status
      CategoryID := 0, CategoryName := ""
      PhotoURLs := p.PhotoURLs, Tags := none, Attributes := none }
  let base := match p.Category with
    | none => base
    | some cat => { base with CategoryID := cat.ID, CategoryName := cat.Name }
  let sortedTags := (p.Tags.map fun t => SyncTag.mk t.ID t.Name).insertionSort syncTagLe
  let base :=
    if p.Tags.isEmpty then base
    else { base with Tags := some sortedTags }
  let base := match p.ExternalRef with
    | none => base
    | some ref =>
        let sortedAttrs :=
          (ref.Attributes.map fun kv => SyncAttributeKV.mk kv.1 kv.2).insertionSort syncAttrLe
        if ref.Attributes.isEmpty then base
        else { base with Attributes := some sortedAttrs }
  base

/-- Go `computePartnerSyncHash` on a non-nil pet (the nil-pet error path is
kept in the activity wrapper below). -/
def petSyncHash (p : Pet) : String :=
  hexEncode (sha256 (strBytes (jsonSyncPayload (syncPayloadOf p))))

/-- Go `computePartnerSyncHash` including the nil-pointer check. -/
def computePartnerSyncHash : Option Pet → Except GoErr String
  | none => .error (.other "nil pet")
  | some p => .ok (petSyncHash p)

/-- Go `alreadySynced`. -/
def alreadySynced (hash : String) : Option Pet → Bool
  | none => false
  | some p =>
      match p.ExternalRef with
      | none => false
      | some ref => attrGet ref.Attributes partnerSyncHashKey = hash

/-- Go `updatePartnerSyncHash` (returns the mutated pet). -/
def updatePartnerSyncHash (hash : String) (p : Pet) : Pet :=
  let p :=
    match p.ExternalRef with
    | none => p.UpdateExternalReference (some ⟨"partner", goFormatInt p.ID, []⟩)
    | some _ => p
  match p.ExternalRef with
  | some ref =>
      { p with ExternalRef := some { ref with Attributes := attrSet ref.Attributes partnerSyncHashKey hash } }
  | none => p

/-- Go `types.PetIdentifier`. -/
structure PetIdentifier where
  ID : Int
  deriving DecidableEq, Repr

/-- Repository oracles seen by the sync activity (`petsports.Repository`):
each call returns the `(*PetProjection, error)` pair the repository would
produce. -/
structure RepoOracle where
  getByID : Int → Option PetProjection × Option GoErr
  save : Pet → Option PetProjection × Option GoErr

/-- Environment of one `SyncPetWithPartner` execution: the optional partner
port, the optional repository, the heartbeat details of a prior attempt and
the partner adapter outcome per pet. -/
structure SyncEnv where
  partnerSync : Option (Pet → Option GoErr)
  repo : Option RepoOracle
  heartbeat : Option SyncHeartbeat

/-- Outbound calls the sync activity performs, in execution order. -/
inductive SyncCall where
  | getByID (id : Int)
  | partnerCall (p : Pet)
  | saveCall (p : Pet)
  | heartbeatRecord (hb : SyncHeartbeat)
  deriving DecidableEq, Repr

/-- Go `Activities.SyncPetWithPartner`: returns the activity error and the
ordered log of outbound calls.  (`a == nil` cannot arise for a registered
activity and is not modelled.) -/
def SyncPetWithPartner (env : SyncEnv) (input : PetIdentifier) :
    Option GoErr × List SyncCall :=
  match env.partnerSync with
  | none => (none, [])
  | some partner =>
    match env.repo with
    | none => (some (.other "pet repository not configured for sync"), [])
    | some repo =>
      let hb := env.heartbeat.getD ⟨false, ""⟩
      if hb.Completed then (none, [])
      else
        match repo.getByID input.ID with
        | (_, some e) => (some e, [.getByID input.ID])
        | (projection?, none) =>
          match projection?.bind fun projection => projection.Pet with
          | none => (some (.other "pet projection missing for sync"), [.getByID input.ID])
          | some pet =>
            match computePartnerSyncHash (some pet) with
            | .error e => (some e, [.getByID input.ID])
            | .ok hash =>
              if alreadySynced hash (some pet) then (none, [.getByID input.ID])
              else
                match partner pet with
                | some e => (some e, [.getByID input.ID, .partnerCall pet])
                | none =>
                  let pet2 := updatePartnerSyncHash hash pet
                  match repo.save pet2 with
                  | (_, some e) =>
                      (some e, [.getByID input.ID, .partnerCall pet, .saveCall pet2])
                  | (_, none) =>
                      (none, [.getByID input.ID, .partnerCall pet, .saveCall pet2,
                        .heartbeatRecord ⟨true, hash⟩])

/-! ## Pets application service, inline path
(`internal/domains/pets/application/service.go`; `errors.go` for `mapError`).
The tree carries two compiled variants of the aggregate-building helpers: one
whose domain `UpdateStatus` returns an error (its domain file is not part of
the tree) and the one matching the `UpdateStatus` of `projections.go`, which
is silent.  The embedding follows the latter, the variant whose domain code
is present. -/

/-- Pets `mapError` (`errors.go`): validation sentinels are wrapped in
`ErrInvalidInput`, everything else passes through.  The embedded paths only
ever feed it raw sentinels, so the `errors.Is` chain walk is a constructor
match. -/
def mapError (err : GoErr) : GoErr :=
  match err with
  | .emptyName | .emptyPhotos | .invalidHair | .invalidGrooming | .invalidStatus =>
      .invalidInputWrap err
  | e => e

/-- Go `applyPartialMutation` (variant compiled against the silent
`UpdateStatus`; field-by-field application in source order). -/
def applyPartialMutation (target : Pet) (input : PetMutationInput) : Except GoErr Pet := do
  let target ←
    match input.Name with
    | some name => target.Rename name
    | none => pure target
  let target ←
    match input.PhotoURLs with
    | some urls => target.ReplacePhotos urls
    | none => pure target
  let target :=
    match input.Category with
    | some cat =>
        if cat.ID = 0 ∧ cat.Name = "" then target.UpdateCategory none
        else target.UpdateCategory (some ⟨cat.ID, cat.Name⟩)
    | none => target
  let target :=
    match input.Tags with
    | some tags => target.ReplaceTags (tags.map fun t => ⟨t.ID, t.Name⟩)
    | none => target
  let target :=
    match input.Status with
    | some status => target.UpdateStatus status
    | none => target
  let target ←
    match input.HairLengthCm with
    | some length => target.UpdateHairLength length
    | none => pure target
  let target :=
    match input.ExternalReference with
    | some ref =>
        if ref.Provider = "" ∧ ref.ID = "" ∧ ref.Attributes.isEmpty then
          target.UpdateExternalReference none
        else
          target.UpdateExternalReference (some ⟨ref.Provider, ref.ID, ref.Attributes⟩)
    | none => target
  return target

/-- Go `buildPetFromMutation`: requires name and photos, builds the aggregate,
applies the status (empty when absent) and then the remaining fields with
name/photos/status blanked out. -/
def buildPetFromMutation (input : PetMutationInput) : Except GoErr Pet := do
  let some name := input.Name | .error .emptyName
  let some photos := input.PhotoURLs | .error .emptyPhotos
  let pet ← NewPet input.ID name photos
  let pet :=
    match input.Status with
    | some status => pet.UpdateStatus status
    | none => pet.UpdateStatus ""
  let remainder := { input with Name := none, PhotoURLs := none, Status := none }
  applyPartialMutation pet remainder

/-- Dependencies of the inline service path: the repository save result and
the optional partner-sync port. -/
structure ServiceEnv where
  repoSave : Pet → Option PetProjection × Option GoErr
  partnerSync : Option (Pet → Option GoErr)

/-- Outbound calls of the inline service path, in execution order. -/
inductive SvcCall where
  | repoSaveCall (p : Pet)
  | partnerSyncCall (p : Pet)
  deriving DecidableEq, Repr

/-- Go `Service.syncWithPartner`: a no-op without a configured port or a
saved pet, otherwise one partner call whose failure is wrapped in
`ErrPartnerSync`. -/
def syncWithPartner (env : ServiceEnv) (saved : Option PetProjection) :
    Option GoErr × List SvcCall :=
  match env.partnerSync with
  | none => (none, [])
  | some partner =>
    match saved.bind fun savedProj => savedProj.Pet with
    | none => (none, [])
    | some pet =>
      match partner pet with
      | some e => (some (.partnerSyncWrap e), [.partnerSyncCall pet])
      | none => (none, [.partnerSyncCall pet])

/-- Go `Service.saveAndSync` (`service.go` lines 156-165): repository save
first; on save failure return the mapped error with no sync; otherwise sync
and, on sync failure, return the saved projection together with the error. -/
def saveAndSync (env : ServiceEnv) (pet : Pet) :
    (Option PetProjection × Option GoErr) × List SvcCall :=
  match env.repoSave pet with
  | (_, some e) => ((none, some (mapError e)), [.repoSaveCall pet])
  | (saved, none) =>
    match syncWithPartner env saved with
    | (some e, syncLog) => ((saved, some e), .repoSaveCall pet :: syncLog)
    | (none, syncLog) => ((saved, none), .repoSaveCall pet :: syncLog)

/-- Go `Service.AddPet`: build the aggregate, surface validation errors
through `mapError`, then `saveAndSync`. -/
def AddPet (env : ServiceEnv) (input : AddPetInput) :
    (Option PetProjection × Option GoErr) × List SvcCall :=
  match buildPetFromMutation input.PetMutationInput with
  | .error e => ((none, some (mapError e)), [])
  | .ok pet => saveAndSync env pet

/-! ## Durable workflow sequence and workflow
(`internal/durable/temporal/sequences`, concatenated into
`internal/platform/migrations/migrations.go`, lines 96-141, and
`internal/durable/temporal/workflows/pets/pet_creation_workflow.go`). -/

/-- Outcomes of the two activities as the workflow observes them (each
already includes the activity's own retry policy: the error is the one left
after retry exhaustion). -/
structure WorkflowEnv where
  persistPet : AddPetInput → Option PetProjection × Option GoErr
  syncPet : PetIdentifier → Option GoErr

/-- Activity executions issued by the workflow, in order. -/
inductive ActivityCall where
  | persist (input : AddPetInput)
  | syncActivity (input : PetIdentifier)
  deriving DecidableEq, Repr

/-- The zero `PetProjection` that `var projection petstypes.PetProjection`
starts from. -/
def zeroProjection : PetProjection := ⟨none, ⟨0, 0⟩⟩

/-- Go `sequences.RunPetPersistenceSequence`: persistence activity first
(persist retry options), aborting on its failure; then, if the projection
carries a pet, the partner-sync activity (sync retry options), whose failure
is returned **together with** the already-persisted projection. -/
def RunPetPersistenceSequence (env : WorkflowEnv) (input : AddPetInput) :
    (Option PetProjection × Option GoErr) × List ActivityCall :=
  match env.persistPet input with
  | (_, some e) => ((none, some e), [.persist input])
  | (proj?, none) =>
    let projection := proj?.getD zeroProjection
    match projection.Pet with
    | some pet =>
      let syncInput := PetIdentifier.mk pet.ID
      match env.syncPet syncInput with
      | some e => ((some projection, some e), [.persist input, .syncActivity syncInput])
      | none => ((some projection, none), [.persist input, .syncActivity syncInput])
    | none => ((some projection, none), [.persist input])

/-- Go `PetCreationWorkflowInput`. -/
structure PetCreationWorkflowInput where
  Command : AddPetInput
  TraceID : String
  deriving DecidableEq, Repr

/-- Go `PetCreationWorkflow` (`pet_creation_workflow.go` lines 23-38): runs
the sequence and returns `nil` with the error whenever the sequence reports
any error — including the sync failure for which the sequence had returned
the persisted projection alongside the error. -/
def PetCreationWorkflow (env : WorkflowEnv) (input : PetCreationWorkflowInput) :
    (Option PetProjection × Option GoErr) × List ActivityCall :=
  match RunPetPersistenceSequence env input.Command with
  | ((_, some e), log) => ((none, some e), log)
  | ((projection, none), log) => ((projection, none), log)

/-! ## Durable orchestrator client
(`internal/domains/pets/adapters/workflows/orchestrator.go`). -/

/-- Go `hashIdempotencyKey`: hex of the first 8 bytes of the SHA-256 of the
key. -/
def hashIdempotencyKey (key : String) : String :=
  hexEncode ((sha256 (strBytes key)).take 8)

/-- Go `buildPetCreationWorkflowID`.  `nowUnixNano` stands for
`time.Now().UnixNano()`, consulted only on the unkeyed fallback path with a
zero pet id. -/
def buildPetCreationWorkflowID (input : AddPetInput) (traceComponent : String)
    (nowUnixNano : Int) : String :=
  let key := goTrimSpace input.IdempotencyKey
  if key ≠ "" then
    "pet-creation-idem-" ++ hashIdempotencyKey key
  else
    let idComponent :=
      if input.PetMutationInput.ID = 0 then nowUnixNano else input.PetMutationInput.ID
    "pet-creation-" ++ goFormatInt idComponent ++ "-" ++ traceComponent

/-- The Temporal client as the orchestrator sees it: `ExecuteWorkflow`
returns either a start error or a run handle whose `Get` outcome is fixed;
`GetWorkflow(workflowID, runID).Get` is a second oracle used on the
already-started path. -/
structure TemporalClientEnv where
  executeStart : String → PetCreationWorkflowInput → Except GoErr (Except GoErr PetProjection)
  getWorkflow : String → String → Except GoErr PetProjection

/-- Go `TemporalPetWorkflows.CreatePet` (`orchestrator.go` lines 38-71):
derive the workflow id, start the run; when the start fails because the id
is already running and the command carries a non-blank idempotency key,
fetch the existing run's result and return it; otherwise propagate errors
and return the run result. -/
def TemporalCreatePet (env : TemporalClientEnv) (input : AddPetInput)
    (traceComponent : String) (nowUnixNano : Int) :
    Option PetProjection × Option GoErr :=
  let workflowID := buildPetCreationWorkflowID input traceComponent nowUnixNano
  match env.executeStart workflowID ⟨input, traceComponent⟩ with
  | .error e =>
    match e with
    | .workflowAlreadyStarted runID =>
      if goTrimSpace input.IdempotencyKey ≠ "" then
        match env.getWorkflow workflowID runID with
        | .error e2 => (none, some e2)
        | .ok projection => (some projection, none)
      else (none, some e)
    | _ => (none, some e)
  | .ok (.error e) => (none, some e)
  | .ok (.ok projection) => (some projection, none)

/-! ## Generic lemmas -/

/-- Any two permutations of a duplicate-free-keyed attribute list sort to
the same list: the sort key is the attribute key, and distinct keys make the
sorted order unique.  This is the reason the Go map iteration order does not
leak into `normalizeExternalReference`. -/
theorem insertionSort_attrKeyLe_eq_of_perm (l₁ l₂ : List NormalizedAttrKV)
    (hp : l₁.Perm l₂) (hnd : (l₁.map NormalizedAttrKV.Key).Nodup) :
    l₁.insertionSort attrKeyLe = l₂.insertionSort attrKeyLe := by
  haveI : IsTotal NormalizedAttrKV attrKeyLe := ⟨fun a b => le_total a.Key b.Key⟩
  haveI : IsTrans NormalizedAttrKV attrKeyLe := ⟨fun _ _ _ hab hbc => le_trans hab hbc⟩
  have hps : (l₁.insertionSort attrKeyLe).Perm (l₂.insertionSort attrKeyLe) :=
    ((List.perm_insertionSort attrKeyLe l₁).trans hp).trans
      (List.perm_insertionSort attrKeyLe l₂).symm
  have hstrict : ∀ l : List NormalizedAttrKV, (l.map NormalizedAttrKV.Key).Nodup →
      List.Sorted (fun a b : NormalizedAttrKV => a.Key < b.Key) (l.insertionSort attrKeyLe) := by
    intro l hndl
    have hsorted := List.sorted_insertionSort attrKeyLe l
    have hne : (l.insertionSort attrKeyLe).Pairwise
        (fun a b : NormalizedAttrKV => a.Key ≠ b.Key) := by
      have : ((l.insertionSort attrKeyLe).map NormalizedAttrKV.Key).Nodup :=
        ((List.perm_insertionSort attrKeyLe l).map NormalizedAttrKV.Key).nodup_iff.mpr hndl
      simpa [List.Nodup, List.pairwise_map] using this
    exact (hsorted.and hne).imp fun hab => lt_of_le_of_ne hab.1 hab.2
  have hnd₂ : (l₂.map NormalizedAttrKV.Key).Nodup :=
    (hp.map NormalizedAttrKV.Key).nodup_iff.mp hnd
  haveI : IsAntisymm NormalizedAttrKV (fun a b : NormalizedAttrKV => a.Key < b.Key) :=
    ⟨fun _ _ h₁ h₂ => absurd h₂ (lt_asymm h₁)⟩
  exact List.eq_of_perm_of_sorted hps (hstrict l₁ hnd) (hstrict l₂ hnd₂)

/-! ## Claim theorems -/

/-- Helper: a store holding one binding. -/
def memStoreOne (key : String) (rec : IdempotencyRecord) (now : Time) : MemStore :=
  ⟨[(key, rec)], now⟩

/-- C2.
For both idempotency store implementations, saving under a key that already
holds a record with a different request hash or pet id returns the stored
record together with the `IdempotencyConflict` error and leaves the store
untouched. -/
theorem idempotency_conflict_returns_existing_and_preserves_store
    (s : MemStore) (rec existing : IdempotencyRecord)
    (hmem : lookupRec s.records rec.Key = some existing)
    (hdiff : existing.RequestHash ≠ rec.RequestHash ∨ existing.PetID ≠ rec.PetID)
    (db : PgDb) (rec2 existing2 : IdempotencyRecord)
    (hdb : lookupRec db.rows rec2.Key = some existing2)
    (hdiff2 : existing2.RequestHash ≠ rec2.RequestHash ∨ existing2.PetID ≠ rec2.PetID) :
    memSave s rec = (s, some existing, some .idempotencyConflict) ∧
    pgSave db db rec2 = (db, some existing2, some .idempotencyConflict) := by
  constructor
  · simp only [memSave, hmem]
    rw [if_pos hdiff]
  · simp only [pgSave, pgCreate, pgGet, hdb]
    simp only [reduceIte]
    rw [if_pos hdiff2]

/-- C2 witness. -/
theorem idempotency_conflict_returns_existing_and_preserves_store_witness :
    memSave (memStoreOne "k" ⟨"k", "h1", 1, 5, 5⟩ 9) ⟨"k", "h2", 1, 0, 0⟩ =
      (memStoreOne "k" ⟨"k", "h1", 1, 5, 5⟩ 9, some ⟨"k", "h1", 1, 5, 5⟩,
        some .idempotencyConflict) ∧
    pgSave ⟨[("k", ⟨"k", "h1", 1, 5, 5⟩)]⟩ ⟨[("k", ⟨"k", "h1", 1, 5, 5⟩)]⟩ ⟨"k", "h2", 1, 0, 0⟩ =
      (⟨[("k", ⟨"k", "h1", 1, 5, 5⟩)]⟩, some ⟨"k", "h1", 1, 5, 5⟩,
        some .idempotencyConflict) :=
  idempotency_conflict_returns_existing_and_preserves_store
    (memStoreOne "k" ⟨"k", "h1", 1, 5, 5⟩ 9) ⟨"k", "h2", 1, 0, 0⟩ ⟨"k", "h1", 1, 5, 5⟩
    (by decide) (by decide)
    ⟨[("k", ⟨"k", "h1", 1, 5, 5⟩)]⟩ ⟨"k", "h2", 1, 0, 0⟩ ⟨"k", "h1", 1, 5, 5⟩
    (by decide) (by decide)

/-- C8.
In the PostgreSQL store's `Save`, when the insert hits the unique-key
constraint but a concurrent deletion makes the follow-up `Get` miss, the
shadowed `err` of the duplicate-key branch is the (nil) `Get` error, so
`Save` returns a nil record and a nil error. -/
theorem pg_save_duplicate_then_missing_returns_nil_nil :
    pgSave ⟨[("k", ⟨"k", "h1", 1, 5, 5⟩)]⟩ ⟨[]⟩ ⟨"k", "h1", 1, 0, 0⟩ =
      (⟨[("k", ⟨"k", "h1", 1, 5, 5⟩)]⟩, none, none) := by
  decide

/-- A record with both timestamps replaced by the instant `t`. -/
def stampRec (rec : IdempotencyRecord) (t : Time) : IdempotencyRecord :=
  { rec with CreatedAt := t, UpdatedAt := t }

/-- C10.
The in-memory store's first insert for a key stamps both `CreatedAt` and
`UpdatedAt` with the clock's current instant, overriding whatever timestamps
the caller supplied, and stores exactly that stamped record. -/
theorem mem_save_first_insert_stamps_clock
    (s : MemStore) (rec : IdempotencyRecord)
    (habs : lookupRec s.records rec.Key = none) :
    memSave s rec =
      ({ s with records := insertRec s.records rec.Key (stampRec rec s.now) },
        some (stampRec rec s.now), none) ∧
    (stampRec rec s.now).CreatedAt = s.now ∧ (stampRec rec s.now).UpdatedAt = s.now := by
  refine ⟨?_, rfl, rfl⟩
  simp only [memSave, habs, stampRec]

/-- C10 witness: the caller-supplied timestamps 3 and 4 are replaced by the
clock value 9. -/
theorem mem_save_first_insert_stamps_clock_witness :
    memSave ⟨[], 9⟩ ⟨"k", "h1", 1, 3, 4⟩ =
      (⟨[("k", ⟨"k", "h1", 1, 9, 9⟩)], 9⟩, some ⟨"k", "h1", 1, 9, 9⟩, none) := by
  have h := mem_save_first_insert_stamps_clock ⟨[], 9⟩ ⟨"k", "h1", 1, 3, 4⟩ (by decide)
  rw [h.1]; decide

/-- A persisted example pet. -/
def rexPet : Pet := ⟨1, none, "Rex", ["http://x/rex.jpg"], [], "available", 0, none⟩

/-- The projection the persistence activity returns for `rexPet`. -/
def rexProjection : PetProjection := ⟨some rexPet, ⟨11, 11⟩⟩

/-- The sync error left after the sync activity exhausts its retries. -/
def syncRetryErr : GoErr := .other "partner sync failed after retries"

/-- A workflow environment in which persistence succeeds and the partner
sync activity ultimately fails. -/
def syncFailEnv : WorkflowEnv :=
  ⟨fun _ => (some rexProjection, none), fun _ => some syncRetryErr⟩

/-- The command of the example run. -/
def rexCommand : AddPetInput :=
  ⟨⟨1, some "Rex", some ["http://x/rex.jpg"], none, none, none, none, none⟩, "abc"⟩

/-- C1.
In a run whose persistence activity succeeds and whose partner-sync activity
fails after retry exhaustion, `RunPetPersistenceSequence` deliberately
returns the already-persisted projection together with the sync error, but
`PetCreationWorkflow` maps any sequence error to `(nil, err)`, so the
workflow returns a nil projection and the caller cannot observe that
persistence succeeded: the code drops the partial-success result its own
sequence produced. -/
theorem pet_creation_workflow_drops_partial_projection :
    RunPetPersistenceSequence syncFailEnv rexCommand =
      ((some rexProjection, some syncRetryErr),
        [.persist rexCommand, .syncActivity ⟨1⟩]) ∧
    PetCreationWorkflow syncFailEnv ⟨rexCommand, "trace-1"⟩ =
      ((none, some syncRetryErr),
        [.persist rexCommand, .syncActivity ⟨1⟩]) := by
  decide

/-- C5.
In the durable sequence the persistence activity is always issued first and
a sync activity can only follow it; when persistence reports an error the
log stops at the single persistence call, so zero partner-sync executions
happen.  The inline path behaves the same with the repository save and the
partner adapter. -/
theorem persist_precedes_sync_and_failure_stops_sync
    (denv : WorkflowEnv) (input : AddPetInput) (senv : ServiceEnv) (pet : Pet) :
    ((RunPetPersistenceSequence denv input).2 = [.persist input] ∨
      ∃ pid, (RunPetPersistenceSequence denv input).2 =
        [.persist input, .syncActivity pid]) ∧
    ((denv.persistPet input).2.isSome →
      (RunPetPersistenceSequence denv input).2 = [.persist input]) ∧
    ((saveAndSync senv pet).2 = [.repoSaveCall pet] ∨
      ∃ sp, (saveAndSync senv pet).2 = [.repoSaveCall pet, .partnerSyncCall sp]) ∧
    ((senv.repoSave pet).2.isSome →
      (saveAndSync senv pet).2 = [.repoSaveCall pet]) := by
  refine ⟨?_, ?_, ?_, ?_⟩
  · rcases hp : denv.persistPet input with ⟨proj?, err?⟩
    cases err? with
    | some e => left; simp [RunPetPersistenceSequence, hp]
    | none =>
      cases hpet : (proj?.getD zeroProjection).Pet with
      | none => left; simp [RunPetPersistenceSequence, hp, hpet]
      | some pet0 =>
        right
        refine ⟨⟨pet0.ID⟩, ?_⟩
        cases hs : denv.syncPet ⟨pet0.ID⟩ <;>
          simp [RunPetPersistenceSequence, hp, hpet, hs]
  · intro herr
    rcases hp : denv.persistPet input with ⟨proj?, err?⟩
    cases err? with
    | some e => simp [RunPetPersistenceSequence, hp]
    | none => rw [hp] at herr; simp at herr
  · rcases hr : senv.repoSave pet with ⟨saved?, err?⟩
    cases err? with
    | some e => left; simp [saveAndSync, hr]
    | none =>
      rcases hsw : syncWithPartner senv saved? with ⟨syncErr?, syncLog⟩
      have hlog : syncLog = [] ∨ ∃ sp, syncLog = [.partnerSyncCall sp] := by
        cases hsp : senv.partnerSync with
        | none =>
          simp only [syncWithPartner, hsp] at hsw
          left; exact ((Prod.mk.inj hsw).2).symm
        | some partner =>
          simp only [syncWithPartner, hsp] at hsw
          cases hpp : saved?.bind fun savedProj => savedProj.Pet with
          | none =>
            simp only [hpp] at hsw
            left; exact ((Prod.mk.inj hsw).2).symm
          | some sp =>
            simp only [hpp] at hsw
            cases hps : partner sp with
            | some e =>
              simp only [hps] at hsw
              right; exact ⟨sp, ((Prod.mk.inj hsw).2).symm⟩
            | none =>
              simp only [hps] at hsw
              right; exact ⟨sp, ((Prod.mk.inj hsw).2).symm⟩
      rcases hlog with h0 | ⟨sp, h1⟩
      · left; cases syncErr? <;> simp [saveAndSync, hr, hsw, h0]
      · right; exact ⟨sp, by cases syncErr? <;> simp [saveAndSync, hr, hsw, h1]⟩
  · intro herr
    rcases hr : senv.repoSave pet with ⟨saved?, err?⟩
    cases err? with
    | some e => simp [saveAndSync, hr]
    | none => rw [hr] at herr; simp at herr

/-- A failing persistence activity environment. -/
def persistFailEnv : WorkflowEnv :=
  ⟨fun _ => (none, some (.other "database unavailable")), fun _ => none⟩

/-- A failing repository save environment for the inline path. -/
def saveFailEnv : ServiceEnv :=
  ⟨fun _ => (none, some .notFound), some fun _ => none⟩

/-- C5 witness: with a forced persistence failure, both paths log exactly one
persistence attempt and no sync call. -/
theorem persist_precedes_sync_and_failure_stops_sync_witness :
    (RunPetPersistenceSequence persistFailEnv rexCommand).2 = [.persist rexCommand] ∧
    (saveAndSync saveFailEnv rexPet).2 = [.repoSaveCall rexPet] :=
  ⟨(persist_precedes_sync_and_failure_stops_sync persistFailEnv rexCommand
      saveFailEnv rexPet).2.1 (by decide),
   (persist_precedes_sync_and_failure_stops_sync persistFailEnv rexCommand
      saveFailEnv rexPet).2.2.2 (by decide)⟩

/-- The external reference the sync activity creates for a pet without one:
provider `"partner"`, the decimal-formatted pet id, and the content hash
stored under `partner_sync_hash`. -/
def partnerRefFor (pet : Pet) (hash : String) : ExternalReference :=
  ⟨"partner", goFormatInt pet.ID, [(partnerSyncHashKey, hash)]⟩

/-- Shared helper: when the heartbeat reports no prior completion, the
reload succeeds, the fresh hash does not match the stored one and both the
partner call and the hash-persisting save succeed, the sync activity runs
the full reload → partner call → save → heartbeat pipeline in that order. -/
theorem syncActivityRunsPartner
    (env : SyncEnv) (partner : Pet → Option GoErr) (repo : RepoOracle)
    (input : PetIdentifier) (proj : PetProjection) (pet : Pet)
    (savedProj : Option PetProjection)
    (hpartner : env.partnerSync = some partner)
    (hrepo : env.repo = some repo)
    (hhb : (env.heartbeat.getD ⟨false, ""⟩).Completed = false)
    (hget : repo.getByID input.ID = (some proj, none))
    (hpet : proj.Pet = some pet)
    (hnot : alreadySynced (petSyncHash pet) (some pet) = false)
    (hsync : partner pet = none)
    (hsave : repo.save (updatePartnerSyncHash (petSyncHash pet) pet) = (savedProj, none)) :
    SyncPetWithPartner env input =
      (none, [.getByID input.ID, .partnerCall pet,
        .saveCall (updatePartnerSyncHash (petSyncHash pet) pet),
        .heartbeatRecord ⟨true, petSyncHash pet⟩]) := by
  simp only [SyncPetWithPartner, hpartner, hrepo, hhb, hget, hpet, Option.some_bind,
    computePartnerSyncHash, hnot, Bool.false_eq_true, if_false, hsync, hsave]

/-- C9.
A successful outbound sync for a pet without an external reference creates
one with provider `"partner"` and the decimal-formatted pet id, stores the
content hash under `partner_sync_hash` on that reference, and persists the
modified pet through `Repository.Save` strictly before recording the
completion heartbeat (the call log lists the save ahead of the heartbeat). -/
theorem sync_success_creates_ref_saves_then_heartbeats
    (env : SyncEnv) (partner : Pet → Option GoErr) (repo : RepoOracle)
    (input : PetIdentifier) (proj : PetProjection) (pet : Pet)
    (savedProj : Option PetProjection)
    (hpartner : env.partnerSync = some partner)
    (hrepo : env.repo = some repo)
    (hhb : (env.heartbeat.getD ⟨false, ""⟩).Completed = false)
    (hget : repo.getByID input.ID = (some proj, none))
    (hpet : proj.Pet = some pet)
    (href : pet.ExternalRef = none)
    (hsync : partner pet = none)
    (hsave : repo.save (updatePartnerSyncHash (petSyncHash pet) pet) = (savedProj, none)) :
    updatePartnerSyncHash (petSyncHash pet) pet =
      { pet with ExternalRef := some (partnerRefFor pet (petSyncHash pet)) } ∧
    SyncPetWithPartner env input =
      (none, [.getByID input.ID, .partnerCall pet,
        .saveCall (updatePartnerSyncHash (petSyncHash pet) pet),
        .heartbeatRecord ⟨true, petSyncHash pet⟩]) := by
  have hupd : updatePartnerSyncHash (petSyncHash pet) pet =
      { pet with ExternalRef := some (partnerRefFor pet (petSyncHash pet)) } := by
    simp [updatePartnerSyncHash, href, Pet.UpdateExternalReference, attrSet, partnerRefFor]
  have hasynced : alreadySynced (petSyncHash pet) (some pet) = false := by
    simp [alreadySynced, href]
  exact ⟨hupd, syncActivityRunsPartner env partner repo input proj pet savedProj
    hpartner hrepo hhb hget hpet hasynced hsync hsave⟩

/-- Repository oracle whose `GetByID` always serves the given stored pet and
whose `Save` always succeeds. -/
def servingRepo (stored : Pet) : RepoOracle :=
  ⟨fun _ => (some ⟨some stored, ⟨2, 3⟩⟩, none), fun _ => (none, none)⟩

/-- Sync environment with a configured, always-successful partner adapter, a
repository serving the given pet, and no prior heartbeat. -/
def partnerOkEnv (stored : Pet) : SyncEnv :=
  ⟨some fun _ => none, some (servingRepo stored), none⟩

/-- C9 witness. -/
theorem sync_success_creates_ref_saves_then_heartbeats_witness :
    updatePartnerSyncHash (petSyncHash rexPet) rexPet =
      { rexPet with ExternalRef := some (partnerRefFor rexPet (petSyncHash rexPet)) } ∧
    SyncPetWithPartner (partnerOkEnv rexPet) ⟨1⟩ =
      (none, [.getByID 1, .partnerCall rexPet,
        .saveCall (updatePartnerSyncHash (petSyncHash rexPet) rexPet),
        .heartbeatRecord ⟨true, petSyncHash rexPet⟩]) :=
  sync_success_creates_ref_saves_then_heartbeats (partnerOkEnv rexPet)
    (fun _ => none) (servingRepo rexPet) ⟨1⟩ ⟨some rexPet, ⟨2, 3⟩⟩ rexPet none
    rfl rfl (by decide) rfl rfl (by decide) rfl rfl

/-- The partner-sync content hash of `rexPet` before any sync. -/
def rexHash1 : String :=
  "dd50a29f3dc493850d0f719cf6ce9f12a9be6fb01ba906193fc390582764e298"

/-- The partner-sync content hash of the same pet once `rexHash1` has been
stored on its external reference. -/
def rexHash2 : String :=
  "1c927e3c44d632f3f7606ec98be264a1e29c5c7c58b8268755d8b54a62440b30"

/-- The pet as stored after the first successful sync of `rexPet`: all its
partner-relevant fields are unchanged, only the `partner_sync_hash`
attribute was added. -/
def rexPetSynced : Pet :=
  ⟨1, none, "Rex", ["http://x/rex.jpg"], [], "available", 0,
    some ⟨"partner", "1", [(partnerSyncHashKey, rexHash1)]⟩⟩

/-- The pet as stored after the second (redundant) sync. -/
def rexPetSynced2 : Pet :=
  ⟨1, none, "Rex", ["http://x/rex.jpg"], [], "available", 0,
    some ⟨"partner", "1", [(partnerSyncHashKey, rexHash2)]⟩⟩

/-- The canonical partner payload of `rexPetSynced`: note the stored
`partner_sync_hash` attribute appears inside the hashed bytes. -/
def rexSyncedPayloadJSON : String :=
  "\x7b\"id\":1,\"name\":\"Rex\",\"status\":\"available\",\"categoryId\":0,\"categoryName\":\"\",\"photoUrls\":[\"http://x/rex.jpg\"],\"tags\":null,\"attributes\":[\x7b\"key\":\"partner_sync_hash\",\"value\":\"dd50a29f3dc493850d0f719cf6ce9f12a9be6fb01ba906193fc390582764e298\"\x7d]\x7d"

/-- The SHA-256 digest bytes of `rexSyncedPayloadJSON`. -/
def rexSyncedDigest : List Nat :=
  [28, 146, 126, 60, 68, 214, 50, 243, 247, 96, 110, 201, 139, 226, 100, 161,
   226, 156, 92, 124, 88, 184, 38, 135, 85, 216, 181, 74, 98, 68, 11, 48]

set_option maxRecDepth 100000 in
/-- C4.
The content hash feeds the whole attribute map — including the stored
`partner_sync_hash` attribute itself — back into the digest, so after the
first successful sync the freshly computed hash of the otherwise unchanged
pet (`rexHash2`) no longer equals the stored one (`rexHash1`), and the
second activity execution calls the partner adapter again instead of
skipping: the cross-attempt dedup the claim (and the code comment "avoid
re-sending identical payloads on retries") promises never triggers. -/
theorem sync_dedup_defeated_by_hash_attribute :
    petSyncHash rexPet = rexHash1 ∧
    petSyncHash rexPetSynced = rexHash2 ∧
    rexHash2 ≠ rexHash1 ∧
    SyncPetWithPartner (partnerOkEnv rexPet) ⟨1⟩ =
      (none, [.getByID 1, .partnerCall rexPet, .saveCall rexPetSynced,
        .heartbeatRecord ⟨true, rexHash1⟩]) ∧
    SyncPetWithPartner (partnerOkEnv rexPetSynced) ⟨1⟩ =
      (none, [.getByID 1, .partnerCall rexPetSynced, .saveCall rexPetSynced2,
        .heartbeatRecord ⟨true, rexHash2⟩]) := by
  have hmsg : jsonSyncPayload (syncPayloadOf rexPetSynced) = rexSyncedPayloadJSON := by
    decide
  have hdigest : sha256 (strBytes rexSyncedPayloadJSON) = rexSyncedDigest := by
    decide
  have hpay2 : petSyncHash rexPetSynced = rexHash2 := by
    unfold petSyncHash
    rw [hmsg, hdigest]
    decide
  have hnot : alreadySynced (petSyncHash rexPetSynced) (some rexPetSynced) = false := by
    simp only [alreadySynced, hpay2]
    decide
  have hupd2 : updatePartnerSyncHash (petSyncHash rexPetSynced) rexPetSynced = rexPetSynced2 := by
    rw [hpay2]
    decide
  have hrun2 := syncActivityRunsPartner (partnerOkEnv rexPetSynced) (fun _ => none)
    (servingRepo rexPetSynced) ⟨1⟩ ⟨some rexPetSynced, ⟨2, 3⟩⟩ rexPetSynced none
    rfl rfl (by decide) rfl rfl hnot rfl rfl
  rw [hupd2, hpay2] at hrun2
  exact ⟨by decide, hpay2, by decide, by decide, hrun2⟩

/-- An add-pet command carrying the tag list `[a, b]`. -/
def tagCmdAB : AddPetInput :=
  ⟨⟨7, some "Rex", some ["u"], none, some [⟨1, "a"⟩, ⟨2, "b"⟩], none, none, none⟩, "key-1"⟩

/-- The same command with the tag list permuted to `[b, a]`. -/
def tagCmdBA : AddPetInput :=
  ⟨⟨7, some "Rex", some ["u"], none, some [⟨2, "b"⟩, ⟨1, "a"⟩], none, none, none⟩, "key-1"⟩

set_option maxRecDepth 100000 in
/-- C3 counterexample.
`normalizeTags` copies the tag list in its given order without sorting, so
two commands identical in every field except the in-memory order of their
tag lists serialize to different canonical JSON and fingerprint differently:
`FingerprintAddPet` is not invariant under tag-list permutation. -/
theorem fingerprint_changes_under_tag_permutation :
    (tagCmdBA.PetMutationInput.Tags.getD []).Perm (tagCmdAB.PetMutationInput.Tags.getD []) ∧
    tagCmdBA.PetMutationInput.ID = tagCmdAB.PetMutationInput.ID ∧
    tagCmdBA.PetMutationInput.Name = tagCmdAB.PetMutationInput.Name ∧
    tagCmdBA.PetMutationInput.PhotoURLs = tagCmdAB.PetMutationInput.PhotoURLs ∧
    tagCmdBA.PetMutationInput.Category = tagCmdAB.PetMutationInput.Category ∧
    tagCmdBA.PetMutationInput.Status = tagCmdAB.PetMutationInput.Status ∧
    tagCmdBA.PetMutationInput.HairLengthCm = tagCmdAB.PetMutationInput.HairLengthCm ∧
    tagCmdBA.PetMutationInput.ExternalReference = tagCmdAB.PetMutationInput.ExternalReference ∧
    tagCmdBA.IdempotencyKey = tagCmdAB.IdempotencyKey ∧
    FingerprintAddPet tagCmdAB ≠ FingerprintAddPet tagCmdBA := by
  refine ⟨by decide, rfl, rfl, rfl, rfl, rfl, rfl, rfl, rfl, by decide⟩

/-- A command equal to `input` except that the external-reference attribute
list is replaced by `attrs2`. -/
def withExternalAttributes (input : AddPetInput) (ref : ExternalReferenceInput)
    (attrs2 : List (String × String)) : AddPetInput :=
  { input with PetMutationInput :=
      { input.PetMutationInput with ExternalReference := some ⟨ref.Provider, ref.ID, attrs2⟩ } }

/-- C3 (amended).
The half of the claim the code satisfies: permuting the external-reference
attribute map (whose keys, coming from a Go map, are duplicate-free) does
not change `FingerprintAddPet`, because `normalizeExternalReference` sorts
the attributes by key before serialization.  Permuting the tag list, by
contrast, changes the canonical form (see the counterexample): tags are
serialized in their given order. -/
theorem fingerprint_invariant_under_attr_permutation
    (input : AddPetInput) (ref : ExternalReferenceInput) (attrs2 : List (String × String))
    (hsome : input.PetMutationInput.ExternalReference = some ref)
    (hperm : ref.Attributes.Perm attrs2)
    (hnd : (ref.Attributes.map Prod.fst).Nodup) :
    FingerprintAddPet (withExternalAttributes input ref attrs2) = FingerprintAddPet input := by
  have hmapperm : (attrs2.map fun kv => NormalizedAttrKV.mk kv.1 kv.2).Perm
      (ref.Attributes.map fun kv => NormalizedAttrKV.mk kv.1 kv.2) :=
    (hperm.symm.map _)
  have hnd2 : (attrs2.map Prod.fst).Nodup := (hperm.map Prod.fst).nodup_iff.mp hnd
  have hkeys2 : ((attrs2.map fun kv => NormalizedAttrKV.mk kv.1 kv.2).map
      NormalizedAttrKV.Key).Nodup := by
    simpa [List.map_map, Function.comp] using hnd2
  have hsorteq := insertionSort_attrKeyLe_eq_of_perm
    (attrs2.map fun kv => NormalizedAttrKV.mk kv.1 kv.2)
    (ref.Attributes.map fun kv => NormalizedAttrKV.mk kv.1 kv.2)
    hmapperm hkeys2
  have hnorm : normalizeAddPetInput (withExternalAttributes input ref attrs2) =
      normalizeAddPetInput input := by
    simp only [normalizeAddPetInput, withExternalAttributes, hsome,
      normalizeExternalReference, hsorteq]
  unfold FingerprintAddPet
  rw [hnorm]

/-- The external reference whose attribute order the C3 witness permutes. -/
def attrRefInput : ExternalReferenceInput := ⟨"prov", "ext-1", [("a", "1"), ("b", "2")]⟩

/-- A command carrying `attrRefInput`. -/
def attrCmd : AddPetInput :=
  ⟨⟨7, some "Rex", some ["u"], none, none, none, none, some attrRefInput⟩, "key-1"⟩

/-- C3 witness (for the amended half): permuting a two-entry attribute map
leaves the fingerprint unchanged. -/
theorem fingerprint_invariant_under_attr_permutation_witness :
    FingerprintAddPet (withExternalAttributes attrCmd attrRefInput [("b", "2"), ("a", "1")]) =
      FingerprintAddPet attrCmd :=
  fingerprint_invariant_under_attr_permutation attrCmd attrRefInput
    [("b", "2"), ("a", "1")] rfl (by decide) (by decide)

/-! Lemmas about hex encoding and digest lengths, used for the
workflow-identity claim. -/

theorem hexEncode_append (a b : List Nat) :
    hexEncode (a ++ b) = hexEncode a ++ hexEncode b := by
  show String.mk ((a ++ b).flatMap byteHex) =
    String.mk (a.flatMap byteHex) ++ String.mk (b.flatMap byteHex)
  rw [List.flatMap_append]
  rfl

theorem hexEncode_length (bs : List Nat) : (hexEncode bs).length = 2 * bs.length := by
  show (bs.flatMap byteHex).length = 2 * bs.length
  induction bs with
  | nil => rfl
  | cons b t ih =>
    simp only [List.flatMap_cons, byteHex, List.length_append, List.length_cons,
      List.length_nil, ih]
    omega

theorem sha256_length (msg : List Nat) : (sha256 msg).length = 32 := by
  simp [sha256, wordBytes]

/-- C6.
When the trimmed idempotency key is non-blank, the derived workflow run
identity is the fixed prefix `pet-creation-idem-` followed by the first 16
hex characters of the SHA-256 digest of the key — a function of the key
alone, independent of the command's other fields, the trace token and the
clock — and a start that fails because this identity already runs makes the
client fetch and return the existing run's result instead of an error. -/
theorem workflow_identity_collapses_on_idempotency_key :
    (∀ (i₁ i₂ : AddPetInput) (t₁ t₂ : String) (n₁ n₂ : Int),
      goTrimSpace i₁.IdempotencyKey = goTrimSpace i₂.IdempotencyKey →
      goTrimSpace i₁.IdempotencyKey ≠ "" →
      buildPetCreationWorkflowID i₁ t₁ n₁ = buildPetCreationWorkflowID i₂ t₂ n₂) ∧
    (∀ (i : AddPetInput) (t : String) (n : Int),
      goTrimSpace i.IdempotencyKey ≠ "" →
      buildPetCreationWorkflowID i t n =
        "pet-creation-idem-" ++ hashIdempotencyKey (goTrimSpace i.IdempotencyKey) ∧
      ∃ rest,
        hexEncode (sha256 (strBytes (goTrimSpace i.IdempotencyKey))) =
          hashIdempotencyKey (goTrimSpace i.IdempotencyKey) ++ rest ∧
        (hashIdempotencyKey (goTrimSpace i.IdempotencyKey)).length = 16) ∧
    (∀ (env : TemporalClientEnv) (i : AddPetInput) (t : String) (n : Int)
      (runID : String) (proj : PetProjection),
      goTrimSpace i.IdempotencyKey ≠ "" →
      env.executeStart (buildPetCreationWorkflowID i t n) ⟨i, t⟩ =
        .error (.workflowAlreadyStarted runID) →
      env.getWorkflow (buildPetCreationWorkflowID i t n) runID = .ok proj →
      TemporalCreatePet env i t n = (some proj, none)) := by
  refine ⟨?_, ?_, ?_⟩
  · intro i₁ i₂ t₁ t₂ n₁ n₂ hk hne
    have hne₂ : goTrimSpace i₂.IdempotencyKey ≠ "" := hk ▸ hne
    simp only [buildPetCreationWorkflowID]
    rw [if_pos hne, if_pos hne₂, hk]
  · intro i t n hne
    constructor
    · simp only [buildPetCreationWorkflowID]
      rw [if_pos hne]
    · refine ⟨hexEncode ((sha256 (strBytes (goTrimSpace i.IdempotencyKey))).drop 8), ?_, ?_⟩
      · conv_lhs =>
          rw [← List.take_append_drop 8 (sha256 (strBytes (goTrimSpace i.IdempotencyKey)))]
        rw [hexEncode_append]
        rfl
      · show (hexEncode ((sha256 (strBytes (goTrimSpace i.IdempotencyKey))).take 8)).length = 16
        rw [hexEncode_length, List.length_take, sha256_length]
        decide
  · intro env i t n runID proj hne hstart hget
    simp only [TemporalCreatePet, hstart, hget, hne, ne_eq, not_false_eq_true, if_true]

/-- A keyed command. -/
def idemCmdA : AddPetInput := ⟨⟨1, some "Rex", some ["u"], none, none, none, none, none⟩, "abc"⟩

/-- A command that differs in every other field but trims to the same key. -/
def idemCmdB : AddPetInput :=
  ⟨⟨2, some "Buddy", some ["v"], none, none, none, none, none⟩, "  abc "⟩

/-- A client whose start always reports the identity as already running and
whose fetch returns the existing run's projection. -/
def alreadyStartedEnv : TemporalClientEnv :=
  ⟨fun _ _ => .error (.workflowAlreadyStarted "run-1"), fun _ _ => .ok rexProjection⟩

/-- C6 witness: two differing commands with keys `"abc"` and `"  abc "`
derive the same identity, the identity is the digest prefix of `"abc"`, and
an already-started identity resolves to the existing run's result. -/
theorem workflow_identity_collapses_on_idempotency_key_witness :
    buildPetCreationWorkflowID idemCmdA "t1" 5 = buildPetCreationWorkflowID idemCmdB "t2" 6 ∧
    buildPetCreationWorkflowID idemCmdA "t1" 5 =
      "pet-creation-idem-" ++ hashIdempotencyKey "abc" ∧
    TemporalCreatePet alreadyStartedEnv idemCmdA "t1" 5 = (some rexProjection, none) := by
  refine ⟨workflow_identity_collapses_on_idempotency_key.1 idemCmdA idemCmdB "t1" "t2" 5 6
      (by decide) (by decide), ?_, workflow_identity_collapses_on_idempotency_key.2.2
      alreadyStartedEnv idemCmdA "t1" 5 "run-1" rexProjection (by decide) rfl rfl⟩
  have h := (workflow_identity_collapses_on_idempotency_key.2.1 idemCmdA "t1" 5 (by decide)).1
  have hk : goTrimSpace idemCmdA.IdempotencyKey = "abc" := by decide
  rw [hk] at h
  exact h

/-- A mutation whose status field carries the invalid value `"zombie"`. -/
def zombieMutation : PetMutationInput :=
  ⟨5, some "Rex", some ["http://x/rex.jpg"], none, none, some "zombie", none, none⟩

/-- The pet the build produces for `zombieMutation`: the invalid status has
been silently replaced by `available`. -/
def zombiePet : Pet := ⟨5, none, "Rex", ["http://x/rex.jpg"], [], "available", 0, none⟩

/-- A service environment whose repository save succeeds. -/
def okRepoEnv : ServiceEnv := ⟨fun p => (some ⟨some p, ⟨1, 1⟩⟩, none), none⟩

/-- C7 counterexample.
`Pet.UpdateStatus` never reports an error: the invalid status `"zombie"` is
silently coerced to `available`, the aggregate builds successfully, and
`AddPet` proceeds to persist the pet — no validation error is surfaced and
persistence does occur, contradicting the claim. -/
theorem invalid_status_builds_and_persists_without_error :
    buildPetFromMutation zombieMutation = .ok zombiePet ∧
    zombiePet.Status = StatusAvailable ∧
    AddPet okRepoEnv ⟨zombieMutation, ""⟩ =
      ((some ⟨some zombiePet, ⟨1, 1⟩⟩, none), [.repoSaveCall zombiePet]) :=
  ⟨rfl, rfl, rfl⟩

/-- Shared helper: `applyPartialMutation` with blank name, photos, status
and hair length always succeeds and leaves the status untouched. -/
theorem applyPartialMutation_keeps_status (p : Pet) (input : PetMutationInput)
    (h1 : input.Name = none) (h2 : input.PhotoURLs = none)
    (h3 : input.Status = none) (h4 : input.HairLengthCm = none) :
    ∃ q, applyPartialMutation p input = .ok q ∧ q.Status = p.Status := by
  simp only [applyPartialMutation, h1, h2, h3, h4]
  refine ⟨_, rfl, ?_⟩
  rcases hc : input.Category with _ | cat <;>
    rcases ht : input.Tags with _ | tags <;>
    rcases he : input.ExternalReference with _ | ref <;>
    simp only [hc, ht, he] <;>
    first
      | rfl
      | (split_ifs <;> rfl)

/-- C7 (amended).
What the code actually does with an invalid status: `UpdateStatus` silently
coerces any status outside `available`/`pending`/`sold` (and the empty
status) to `available`; with a valid name and photo list the aggregate
builds without any error, its status is `available`, and `AddPet` always
goes on to call the repository save — persistence is attempted, not
prevented. -/
theorem invalid_status_silently_coerced_to_available
    (input : PetMutationInput) (name : String) (photos : List String) (st : String)
    (hname : input.Name = some name) (hnm : goTrimSpace name ≠ "")
    (hphotos : input.PhotoURLs = some photos) (hph : ¬photos.isEmpty)
    (hst : input.Status = some st)
    (hinv : st ≠ StatusAvailable ∧ st ≠ StatusPending ∧ st ≠ StatusSold ∧ st ≠ "")
    (hhair : input.HairLengthCm = none) :
    ∃ pet, buildPetFromMutation input = .ok pet ∧ pet.Status = StatusAvailable ∧
      ∀ (env : ServiceEnv) (key : String),
        ((AddPet env ⟨input, key⟩).2).head? = some (.repoSaveCall pet) := by
  have hbase : NewPet input.ID name photos =
      .ok ⟨input.ID, none, name, photos, [], "", 0, none⟩ := by
    simp [NewPet, Pet.zero, Pet.Rename, hnm, Pet.ReplacePhotos, hph]
    rfl
  have hstatus : (Pet.UpdateStatus ⟨input.ID, none, name, photos, [], "", 0, none⟩ st).Status =
      StatusAvailable := by
    simp only [Pet.UpdateStatus, hinv.2.2.2, if_false]
    rw [if_neg (by push_neg; exact ⟨hinv.1, hinv.2.1, hinv.2.2.1⟩)]
  obtain ⟨q, hq, hqs⟩ := applyPartialMutation_keeps_status
    (Pet.UpdateStatus ⟨input.ID, none, name, photos, [], "", 0, none⟩ st)
    { input with Name := none, PhotoURLs := none, Status := none }
    rfl rfl rfl hhair
  refine ⟨q, ?_, hqs.trans hstatus, ?_⟩
  · simp only [buildPetFromMutation, hname, hphotos, hbase, hst]
    exact hq
  · intro env key
    have hbuild : buildPetFromMutation input = .ok q := by
      simp only [buildPetFromMutation, hname, hphotos, hbase, hst]
      exact hq
    simp only [AddPet, hbuild]
    rcases hr : env.repoSave q with ⟨saved?, err?⟩
    cases err? with
    | some e => simp [saveAndSync, hr]
    | none =>
      rcases hsw : syncWithPartner env saved? with ⟨syncErr?, syncLog⟩
      cases syncErr? <;> simp [saveAndSync, hr, hsw]

/-- C7 witness (for the amended theorem). -/
theorem invalid_status_silently_coerced_to_available_witness :
    ∃ pet, buildPetFromMutation zombieMutation = .ok pet ∧
      pet.Status = StatusAvailable ∧
      ∀ (env : ServiceEnv) (key : String),
        ((AddPet env ⟨zombieMutation, key⟩).2).head? = some (.repoSaveCall pet) :=
  invalid_status_silently_coerced_to_available zombieMutation "Rex" ["http://x/rex.jpg"]
    "zombie" rfl (by decide) rfl (by decide) rfl
    ⟨by decide, by decide, by decide, by decide⟩ rfl

end PetStore
